import Mathlib

/-!
Verification of the clipforge export pipeline specification against a
shallow embedding of the Rust source (src-tauri/src).

Modelling conventions:
* Rust `f64` time/rate values are modelled as `ℚ` (exact arithmetic over the
  values the code manipulates).
* Rust `u64`/`u32` are modelled as `Nat`, with explicit bounds checks where
  the code can fail on overflow (`str::parse::<u64>`), and explicit
  truncating/saturating conversion where the code uses `as u64`.
* `Vec<T>` is `List T`; `HashMap<String, V>` is an association list
  `List (String × V)` with first-match lookup and in-place update, which is
  what `get_mut`/`insert` provide (keys inserted by the code are fresh UUIDs,
  so each key occurs once).
* Fallible functions returning `Result<T, String>` become `Except String T`.
* File-system writes and process spawns are I/O; functions that only decide
  *what* to write are embedded as pure functions returning the structured
  content, and the supervisor/cancel paths are embedded as state transformers
  over the job registry that also record the emitted events and the attempted
  file-system operations.
-/

namespace ClipForge

/-! ## Data model (src-tauri/src/models) -/

/-- models/timeline.rs `TrackType`. -/
inductive TrackType where
  | Main
  | Overlay
deriving DecidableEq

/-- models/timeline.rs `Transform`. -/
structure Transform where
  x : Int
  y : Int
  width : Nat
  height : Nat
  rotation : ℚ
deriving DecidableEq

/-- models/timeline.rs `TimelineClip`. -/
structure TimelineClip where
  id : String
  media_clip_id : String
  track_id : String
  start_time : ℚ
  in_point : ℚ
  out_point : ℚ
  layer_order : Nat
  transform : Option Transform
deriving DecidableEq

/-- models/timeline.rs `Track`. -/
structure Track where
  id : String
  name : String
  track_type : TrackType
  order : Nat
  clips : List TimelineClip
  visible : Bool
  locked : Bool
  volume : ℚ
deriving DecidableEq

/-- models/clip.rs `MediaClip` (the fields consumed by the export pipeline;
`imported_at : DateTime<Utc>` is modelled as a plain string token). -/
structure MediaClip where
  id : String
  name : String
  source_path : String
  proxy_path : Option String
  thumbnail_path : Option String
  duration : ℚ
  resolution : String
  width : Int
  height : Int
  fps : ℚ
  codec : String
  audio_codec : Option String
  file_size : Int
  bitrate : Option Int
  has_audio : Bool
  imported_at : String
  captions : List String
deriving DecidableEq

/-! ## Duration calculator (models/timeline.rs, ffmpeg/export.rs) -/

/-- models/timeline.rs `TimelineClip::duration`: `out_point - in_point`. -/
def TimelineClip.duration (c : TimelineClip) : ℚ :=
  c.out_point - c.in_point

/-- models/timeline.rs `TimelineClip::end_time`: `start_time + duration`. -/
def TimelineClip.end_time (c : TimelineClip) : ℚ :=
  c.start_time + c.duration

/-- Rust `Iterator::max_by` over a list of values with the usual order
(`partial_cmp(..).unwrap()` on values coming from totally ordered rationals):
`none` on the empty list, otherwise the maximum value. -/
def iterMax : List ℚ → Option ℚ
  | [] => none
  | x :: xs =>
    match iterMax xs with
    | none => some x
    | some m => some (max x m)

/-- models/timeline.rs `Track::duration`:
`clips.iter().map(end_time).max_by(..).unwrap_or(0.0)`. -/
def Track.duration (t : Track) : ℚ :=
  (iterMax (t.clips.map TimelineClip.end_time)).getD 0

/-- ffmpeg/export.rs `calculate_timeline_duration`:
`tracks.iter().map(duration).max_by(..).unwrap_or(0.0)`. -/
def calculate_timeline_duration (tracks : List Track) : ℚ :=
  (iterMax (tracks.map Track.duration)).getD 0

/-- The spec's description of a track's duration (§3, §4.1): the maximum over
its clips of `start_time + (out_point - in_point)`, and `0` for a track with
no clips. -/
def specTrackDuration (t : Track) : ℚ :=
  match t.clips.map (fun c => c.start_time + (c.out_point - c.in_point)) with
  | [] => 0
  | x :: xs => xs.foldl max x

/-- The spec's description of the timeline duration (§4.1): the maximum over
all tracks of the track's duration, and `0` for an empty track list. -/
def specTimelineDuration (tracks : List Track) : ℚ :=
  match tracks.map specTrackDuration with
  | [] => 0
  | x :: xs => xs.foldl max x

/-- A concrete timeline clip used by the duration examples. -/
def mkClip (mid : String) (start inp outp : ℚ) : TimelineClip :=
  { id := mid ++ "-tl", media_clip_id := mid, track_id := "track1",
    start_time := start, in_point := inp, out_point := outp,
    layer_order := 0, transform := none }

/-- A concrete main track holding the given clips. -/
def mkMainTrack (nm : String) (cs : List TimelineClip) : Track :=
  { id := nm ++ "-id", name := nm, track_type := TrackType.Main, order := 0,
    clips := cs, visible := true, locked := false, volume := 1 }

def c8TrackA : Track :=
  mkMainTrack "A" [mkClip "c1" 0 0 5, mkClip "c2" 10 0 3]

def c8TrackB : Track :=
  mkMainTrack "B" [mkClip "c1" 0 2 8]

/-! ## Segment manifest builder (ffmpeg/export.rs `generate_concat_file`)

The Rust function assembles the manifest text in memory (header
`ffconcat version 1.0`, then per clip a `file '<escaped path>'` line, an
`inpoint` line and an `outpoint` line) and performs a single `fs::write` at
the very end, after the whole content has been produced.  The embedding
returns the structured content — the ordered list of segment groups — in
`Except String`; an `error` result corresponds to returning before the single
write, i.e. no manifest file is created. -/

/-- The single-quote character (code 39). -/
def quoteC : Char := Char.ofNat 39

/-- The backslash character (code 92). -/
def backslashC : Char := Char.ofNat 92

/-- ffmpeg/export.rs line 100: `file_path.replace("'", "'\\''")` — each
single quote is replaced by quote, backslash, quote, quote. -/
def escapeQuotes : List Char → List Char
  | [] => []
  | c :: cs =>
    if c = quoteC then quoteC :: backslashC :: quoteC :: quoteC :: escapeQuotes cs
    else c :: escapeQuotes cs

/-- `escapeQuotes` on `String`. -/
def escapeQuotesS (s : String) : String := ⟨escapeQuotes s.data⟩

/-- Modelled from the spec: the concat manifest format's unescaping rule
applied by the manifest consumer (an external collaborator, not code of this
repository) — every occurrence of the four-character sequence quote,
backslash, quote, quote is read back as one single-quote character, scanning
left to right over non-overlapping occurrences. -/
def unescapeQuotes : List Char → List Char
  | [] => []
  | c :: b :: q1 :: q2 :: rest =>
    if c = quoteC ∧ b = backslashC ∧ q1 = quoteC ∧ q2 = quoteC then
      quoteC :: unescapeQuotes rest
    else
      c :: unescapeQuotes (b :: q1 :: q2 :: rest)
  | c :: cs => c :: unescapeQuotes cs

/-- `unescapeQuotes` on `String`. -/
def unescapeQuotesS (s : String) : String := ⟨unescapeQuotes s.data⟩

/-- Rust `Iterator::max_by_key`: `none` on an empty iterator, otherwise the
element with the largest key, the last such element on ties. -/
def max_by_key {α : Type} (key : α → Nat) : List α → Option α
  | [] => none
  | x :: xs =>
    match max_by_key key xs with
    | none => some x
    | some m => if key m < key x then some x else some m

/-- ffmpeg/export.rs lines 58-62: filter the tracks of type `Main` and take
the one with the most clips (`max_by_key(|t| t.clips.len())`). -/
def selectMainTrack (tracks : List Track) : Option Track :=
  max_by_key (fun t => t.clips.length)
    (tracks.filter (fun t => t.track_type == TrackType.Main))

/-- The comparison used at ffmpeg/export.rs line 72:
`a.start_time.partial_cmp(&b.start_time)`. -/
def clipLE (a b : TimelineClip) : Prop := a.start_time ≤ b.start_time

instance : DecidableRel clipLE :=
  fun a b => inferInstanceAs (Decidable (a.start_time ≤ b.start_time))

instance : IsTotal TimelineClip clipLE :=
  ⟨fun a b => le_total a.start_time b.start_time⟩

instance : IsTrans TimelineClip clipLE :=
  ⟨fun _ _ _ h1 h2 => le_trans h1 h2⟩

/-- ffmpeg/export.rs lines 71-72: sort the selected track's clips ascending
by `start_time` (`sort_by` is a comparison sort; equal-start order is
declared unspecified by the spec §4.2, so a stable insertion sort is a
faithful model). -/
def sortClips (clips : List TimelineClip) : List TimelineClip :=
  List.insertionSort clipLE clips

/-- ffmpeg/export.rs lines 86-89: look the clip's media id up in the media
library (`media_library.iter().find(|m| m.id == clip.media_clip_id)`). -/
def findMedia (media_library : List MediaClip) (id : String) : Option MediaClip :=
  media_library.find? (fun m => m.id == id)

/-- One segment group of the manifest, rendered by the source as the three
lines `file '<file_path>'`, `inpoint <inpoint>`, `outpoint <outpoint>`
(in/out formatted with 6 decimal digits); `file_path` holds the
already-escaped resolved path standing between the two wrapping quotes. -/
structure ConcatEntry where
  file_path : String
  inpoint : ℚ
  outpoint : ℚ
deriving DecidableEq

/-- ffmpeg/export.rs lines 79-113: the per-clip loop. For each clip in order:
resolve its media id (first failure aborts the whole operation), resolve the
playable path preferring the proxy, escape it, and emit the segment group. -/
def buildEntries (media_library : List MediaClip) :
    List TimelineClip → Except String (List ConcatEntry)
  | [] => Except.ok []
  | clip :: rest =>
    match findMedia media_library clip.media_clip_id with
    | none => Except.error ("Media clip not found: " ++ clip.media_clip_id)
    | some media_clip =>
      let file_path := media_clip.proxy_path.getD media_clip.source_path
      match buildEntries media_library rest with
      | Except.error e => Except.error e
      | Except.ok entries =>
        Except.ok ({ file_path := escapeQuotesS file_path,
                     inpoint := clip.in_point,
                     outpoint := clip.out_point } :: entries)

/-- ffmpeg/export.rs lines 38-126 `generate_concat_file`: select the main
track, sort its clips by start time, and build the manifest content; the
file write happens only after the whole content exists. -/
def generate_concat_file (tracks : List Track) (media_library : List MediaClip) :
    Except String (List ConcatEntry) :=
  match selectMainTrack tracks with
  | none => Except.error "No main track found"
  | some main_track => buildEntries media_library (sortClips main_track.clips)

/-- The relation between a timeline clip and the segment group the builder
emits for it. -/
def entryRel (media_library : List MediaClip) (c : TimelineClip)
    (e : ConcatEntry) : Prop :=
  ∃ m : MediaClip,
    findMedia media_library c.media_clip_id = some m ∧
    e = { file_path := escapeQuotesS (m.proxy_path.getD m.source_path),
          inpoint := c.in_point, outpoint := c.out_point }

/-- A concrete media item used by the manifest examples. -/
def mkMedia (mid path : String) : MediaClip :=
  { id := mid, name := mid, source_path := path, proxy_path := none,
    thumbnail_path := none, duration := 10, resolution := "1920x1080",
    width := 1920, height := 1080, fps := 30, codec := "h264",
    audio_codec := some "aac", file_size := 1024, bitrate := none,
    has_audio := true, imported_at := "t0", captions := [] }

def c5Tracks : List Track :=
  [mkMainTrack "Main"
    [mkClip "m1" 5 0 5, mkClip "m2" 0 0 7, mkClip "m3" 10 0 3]]

def c5Lib : List MediaClip :=
  [mkMedia "m1" "/path/video1.mp4", mkMedia "m2" "/path/video2.mp4",
   mkMedia "m3" "/path/video3.mp4"]

def c5Entries : List ConcatEntry :=
  [{ file_path := "/path/video2.mp4", inpoint := 0, outpoint := 7 },
   { file_path := "/path/video1.mp4", inpoint := 0, outpoint := 5 },
   { file_path := "/path/video3.mp4", inpoint := 0, outpoint := 3 }]

def c6Tracks : List Track :=
  [mkMainTrack "Main" [mkClip "m1" 0 0 5, mkClip "mX" 5 0 3]]

def c6Lib : List MediaClip := [mkMedia "m1" "/path/a.mp4"]

/-- The spec's example path containing a single quote:
`/a/b/my'clip.mp4`. -/
def c7Path : String :=
  ⟨['/', 'a', '/', 'b', '/', 'm', 'y', quoteC, 'c', 'l', 'i', 'p',
    '.', 'm', 'p', '4']⟩

def c7Tracks : List Track := [mkMainTrack "Main" [mkClip "m1" 0 0 5]]

def c7Lib : List MediaClip := [mkMedia "m1" c7Path]

def c7Entry : ConcatEntry :=
  { file_path := escapeQuotesS c7Path, inpoint := 0, outpoint := 5 }

/-! ## Export settings (src-tauri/src/models/export.rs) -/

/-- models/export.rs `ExportResolution`. -/
inductive ExportResolution where
  | Source
  | UHD4K
  | QHD
  | FullHD
  | HD
  | SD
deriving DecidableEq

/-- models/export.rs `VideoCodec`. -/
inductive VideoCodec where
  | H264
  | HEVC
  | VP9
deriving DecidableEq

/-- models/export.rs `ExportQuality`. -/
inductive ExportQuality where
  | High
  | Medium
  | Low
deriving DecidableEq

/-- models/export.rs `AudioCodec`. -/
inductive AudioCodec where
  | AAC
  | MP3
  | Opus
deriving DecidableEq

/-- models/export.rs `ExportSettings`. -/
structure ExportSettings where
  resolution : ExportResolution
  codec : VideoCodec
  quality : ExportQuality
  fps : Option Nat
  audio_codec : AudioCodec
  audio_bitrate : Nat
  hardware_acceleration : Bool
deriving DecidableEq

/-- models/export.rs `ExportResolution::dimensions`. -/
def ExportResolution.dimensions : ExportResolution → Option (Nat × Nat)
  | ExportResolution.Source => none
  | ExportResolution.UHD4K => some (3840, 2160)
  | ExportResolution.QHD => some (2560, 1440)
  | ExportResolution.FullHD => some (1920, 1080)
  | ExportResolution.HD => some (1280, 720)
  | ExportResolution.SD => some (854, 480)

/-- models/export.rs `VideoCodec::ffmpeg_codec`. -/
def VideoCodec.ffmpeg_codec : VideoCodec → String
  | VideoCodec.H264 => "libx264"
  | VideoCodec.HEVC => "libx265"
  | VideoCodec.VP9 => "libvpx-vp9"

/-- models/export.rs `ExportQuality::crf_value`. -/
def ExportQuality.crf_value : ExportQuality → Nat
  | ExportQuality.High => 18
  | ExportQuality.Medium => 23
  | ExportQuality.Low => 28

/-- models/export.rs `AudioCodec::ffmpeg_codec`. -/
def AudioCodec.ffmpeg_codec : AudioCodec → String
  | AudioCodec.AAC => "aac"
  | AudioCodec.MP3 => "libmp3lame"
  | AudioCodec.Opus => "libopus"

/-! ## Encode command builder (ffmpeg/export.rs `build_export_command`)

The Rust function mutates a `Command` by appending argument strings; the
embedding produces the ordered argument list.  The `#[cfg(target_os)]`
conditional compilation of the hardware-encoder branch is modelled by an
explicit `Platform` parameter.  The source's `Result<Command, String>` is
always `Ok`; the `Stdio::piped()` stream configuration is I/O setup and not
part of the argument list. -/

/-- The compile-time platform selected by `#[cfg(target_os = ...)]`. -/
inductive Platform where
  | MacOS
  | Windows
  | Other
deriving DecidableEq

/-- ffmpeg/export.rs lines 137-142: the concat-demuxer input arguments. -/
def inputArgs (concat_file : String) : List String :=
  ["-f", "concat", "-safe", "0", "-i", concat_file]

/-- ffmpeg/export.rs lines 144-172: video codec selection — hardware encoder
name for `hardware_acceleration && H264` on macOS/Windows (software fallback
elsewhere), software encoder mapped from the codec enum otherwise. -/
def videoCodecArgs (platform : Platform) (settings : ExportSettings) :
    List String :=
  if settings.hardware_acceleration then
    match settings.codec with
    | VideoCodec.H264 =>
      match platform with
      | Platform.MacOS => ["-c:v", "h264_videotoolbox"]
      | Platform.Windows => ["-c:v", "h264_nvenc"]
      | Platform.Other => ["-c:v", settings.codec.ffmpeg_codec]
    | _ => ["-c:v", settings.codec.ffmpeg_codec]
  else ["-c:v", settings.codec.ffmpeg_codec]

/-- ffmpeg/export.rs lines 174-182: rate control — CRF from the quality tier
unless `hardware_acceleration && H264`, in which case a fixed 5 Mbps target
bitrate. -/
def rateControlArgs (settings : ExportSettings) : List String :=
  if ¬ settings.hardware_acceleration ∨ settings.codec ≠ VideoCodec.H264 then
    ["-crf", Nat.repr settings.quality.crf_value]
  else ["-b:v", "5M"]

/-- ffmpeg/export.rs lines 184-187: the `medium` preset, added only when
`hardware_acceleration` is off. -/
def presetArgs (settings : ExportSettings) : List String :=
  if ¬ settings.hardware_acceleration then ["-preset", "medium"] else []

/-- ffmpeg/export.rs lines 189-195: the downscale filter for non-Source
resolutions. -/
def scaleArgs (settings : ExportSettings) : List String :=
  match settings.resolution.dimensions with
  | some (w, h) =>
    ["-vf", "scale=" ++ Nat.repr w ++ ":" ++ Nat.repr h
      ++ ":force_original_aspect_ratio=decrease"]
  | none => []

/-- ffmpeg/export.rs lines 197-200: the frame-rate override. -/
def fpsArgs (settings : ExportSettings) : List String :=
  match settings.fps with
  | some fps => ["-r", Nat.repr fps]
  | none => []

/-- ffmpeg/export.rs lines 202-204: audio codec and bitrate. -/
def audioArgs (settings : ExportSettings) : List String :=
  ["-c:a", settings.audio_codec.ffmpeg_codec,
   "-b:a", Nat.repr settings.audio_bitrate ++ "k"]

/-- ffmpeg/export.rs lines 129-215 `build_export_command`: the full ordered
argument list handed to the encoder process. -/
def build_export_command (platform : Platform) (concat_file output_path : String)
    (settings : ExportSettings) : List String :=
  inputArgs concat_file
    ++ videoCodecArgs platform settings
    ++ rateControlArgs settings
    ++ presetArgs settings
    ++ scaleArgs settings
    ++ fpsArgs settings
    ++ audioArgs settings
    ++ ["-y", output_path]

/-! ### C3, C4 -/

/-- Settings selecting a software encoder (`libx265`) while
`hardware_acceleration` is on. -/
def c3Hw : ExportSettings :=
  { resolution := ExportResolution.Source, codec := VideoCodec.HEVC,
    quality := ExportQuality.Medium, fps := none,
    audio_codec := AudioCodec.AAC, audio_bitrate := 192,
    hardware_acceleration := true }

/-- C3 / C4 example settings: the source's `ExportSettings::default()` with
hardware acceleration on. -/
def c4Hw : ExportSettings :=
  { resolution := ExportResolution.FullHD, codec := VideoCodec.H264,
    quality := ExportQuality.High, fps := none,
    audio_codec := AudioCodec.AAC, audio_bitrate := 192,
    hardware_acceleration := true }

/-- The same settings with hardware acceleration off. -/
def c4Sw : ExportSettings := { c4Hw with hardware_acceleration := false }

/-! ## Job registry & supervisor (src-tauri/src/commands/export.rs)

`ExportState.jobs` is an `Arc<Mutex<HashMap<String, ExportJobHandle>>>`; the
map is modelled as an association list with first-match lookup (keys are
freshly generated UUIDs, so each key occurs once).  Every `get_mut`-style
read-modify-write the code performs under the lock becomes a pure update of
that list.  Emitted events and attempted file-system deletions are recorded
in output lists; the `Result`s of `fs::remove_file`/`fs::remove_dir_all`,
which the code discards with `let _ = ..`, appear as ignored boolean
parameters. -/

/-- ffmpeg/export.rs `ExportStatus`. -/
inductive ExportStatus where
  | Preparing
  | Rendering
  | Complete
  | Cancelled
  | Failed
deriving DecidableEq

/-- ffmpeg/export.rs `ExportJob`. -/
structure ExportJob where
  id : String
  output_path : String
  status : ExportStatus
deriving DecidableEq

/-- commands/export.rs `ExportJobHandle`: the job record plus the optional
live process handle (a pid token here). -/
structure ExportJobHandle where
  job : ExportJob
  process : Option Nat
deriving DecidableEq

/-- The shared jobs map `HashMap<String, ExportJobHandle>`. -/
abbrev Registry := List (String × ExportJobHandle)

/-- `jobs.get(id)` — first entry with the given key. -/
def lookupJob : Registry → String → Option ExportJobHandle
  | [], _ => none
  | p :: ps, id => if p.1 == id then some p.2 else lookupJob ps id

/-- `if let Some(handle) = jobs.get_mut(id) { *handle = f(handle) }` — update
the entry in place when present, no-op otherwise. -/
def updateJob : Registry → String → (ExportJobHandle → ExportJobHandle) → Registry
  | [], _, _ => []
  | p :: ps, id, f => (if p.1 == id then (p.1, f p.2) else p) :: updateJob ps id f

/-- The `handle.job.status = st` write performed under the lock. -/
def setStatus (jobs : Registry) (id : String) (st : ExportStatus) : Registry :=
  updateJob jobs id (fun h => { h with job := { h.job with status := st } })

/-- The status field of the registered job, if any. -/
def statusOf (jobs : Registry) (id : String) : Option ExportStatus :=
  (lookupJob jobs id).map (fun h => h.job.status)

/-- Events published through `app_handle.emit_all`. -/
inductive Event where
  | export_complete (job_id output_path : String)
  | export_error (job_id error : String)
  | export_cancelled (job_id : String)
deriving DecidableEq

/-- Attempted file-system deletions. -/
inductive FsOp where
  | remove_file (path : String)
  | remove_dir_all (path : String)
deriving DecidableEq

/-- The state left behind by the supervisor task's continuation. -/
structure SupervisorOutcome where
  jobs : Registry
  events : List Event
  fs_ops : List FsOp

/-- commands/export.rs lines 154-203: what the spawned supervisor task does
once `run_export` has returned.  `Ok`: emit `export_complete` and set the
status to `Complete`.  `Err` (spawn failure or non-zero exit alike): emit
`export_error`, set the status to `Failed`, and best-effort delete the
partial output file.  Both paths then best-effort delete the scratch
manifest directory.  The two boolean parameters are the outcomes of the two
deletions; the code ignores them (`let _ = ..`), so they influence nothing.
Note the status write is an unconditional `get_mut` write: it does not check
the current status. -/
def supervisor_finish (remove_file_ok remove_dir_ok : Bool)
    (result : Except String Unit) (job_id output_path temp_dir : String)
    (jobs : Registry) : SupervisorOutcome :=
  match result with
  | Except.ok _ =>
    { jobs := setStatus jobs job_id ExportStatus.Complete,
      events := [Event.export_complete job_id output_path],
      fs_ops := [FsOp.remove_dir_all temp_dir] }
  | Except.error e =>
    { jobs := setStatus jobs job_id ExportStatus.Failed,
      events := [Event.export_error job_id e],
      fs_ops := [FsOp.remove_file output_path, FsOp.remove_dir_all temp_dir] }

/-- The state left behind by `cancel_export`. -/
structure CancelOutcome where
  result : Except String Unit
  jobs : Registry
  events : List Event
  fs_ops : List FsOp

/-- commands/export.rs lines 296-332 `cancel_export`: look the job up
(`JobNotFound` error if absent); `take()` the process handle (clearing it in
place) and kill it if present — a kill failure returns early with an error,
after the handle was already taken; otherwise set the status to `Cancelled`,
best-effort delete the partial output file (result discarded), and emit
`export_cancelled`.  `kill_ok` is the kill outcome, `remove_file_ok` the
discarded deletion outcome.  The function never removes the entry from the
map. -/
def cancel_export (kill_ok remove_file_ok : Bool) (jobs : Registry)
    (job_id : String) : CancelOutcome :=
  match lookupJob jobs job_id with
  | none =>
    { result := Except.error ("Export job not found: " ++ job_id),
      jobs := jobs, events := [], fs_ops := [] }
  | some handle =>
    let jobs1 := updateJob jobs job_id (fun h => { h with process := none })
    let proceed : CancelOutcome :=
      { result := Except.ok (),
        jobs := setStatus jobs1 job_id ExportStatus.Cancelled,
        events := [Event.export_cancelled job_id],
        fs_ops := [FsOp.remove_file handle.job.output_path] }
    match handle.process with
    | some _ =>
      if kill_ok then proceed
      else
        { result := Except.error "Failed to kill export process",
          jobs := jobs1, events := [], fs_ops := [] }
    | none => proceed

/-! ### C1, C2, C10 -/

/-- A job in the `Rendering` state with a live process handle. -/
def c1Job : ExportJobHandle :=
  { job := { id := "job-1", output_path := "/out/final.mp4",
             status := ExportStatus.Rendering },
    process := some 1 }

/-- The registry holding exactly that job. -/
def c1Jobs : Registry := [("job-1", c1Job)]

/-! ## Progress extractor (ffmpeg/export.rs `parse_progress`)

The three regular expressions

  `frame=\s*(\d+)`   `fps=\s*([\d.]+)`   `time=(\d+):(\d+):([\d.]+)`

are embedded directly: a search over all start positions left to right, at
each position a literal match followed by greedy character-class captures
(greedy is exact here: every class is immediately followed by a character
outside the class, so the regex engine never backtracks into a capture).
Number parsing follows Rust: `parse::<u64>` fails above `u64::MAX`;
`parse::<f64>` on a `[\d.]+` capture succeeds exactly when it has at least
one digit and at most one dot (valued exactly in `ℚ`); `as u64` truncates
toward zero and saturates at the type bounds. -/

/-- The characters of the regex class `\s`. -/
def spaceChars : List Char :=
  [Char.ofNat 32, Char.ofNat 9, Char.ofNat 10, Char.ofNat 11,
   Char.ofNat 12, Char.ofNat 13]

/-- Membership in `\s`. -/
def isSpace (c : Char) : Bool := spaceChars.contains c

/-- Membership in `[\d.]`. -/
def isDigitDot (c : Char) : Bool := c.isDigit || c = '.'

/-- Match a literal prefix, returning the remaining input. -/
def matchLit : List Char → List Char → Option (List Char)
  | [], rest => some rest
  | _ :: _, [] => none
  | p :: ps, c :: cs => if c = p then matchLit ps cs else none

/-- Consume `\s*` greedily. -/
def skipSpaces : List Char → List Char
  | [] => []
  | c :: cs => if isSpace c then skipSpaces cs else c :: cs

/-- Try `frame=\s*(\d+)` anchored at this position; returns the capture. -/
def tryFrameAt (l : List Char) : Option (List Char) :=
  match matchLit "frame=".data l with
  | none => none
  | some rest =>
    let ds := (skipSpaces rest).takeWhile Char.isDigit
    if ds.isEmpty then none else some ds

/-- Leftmost match of `frame=\s*(\d+)`. -/
def searchFrame : List Char → Option (List Char)
  | [] => none
  | c :: cs =>
    match tryFrameAt (c :: cs) with
    | some ds => some ds
    | none => searchFrame cs

/-- Try `fps=\s*([\d.]+)` anchored at this position; returns the capture. -/
def tryFpsAt (l : List Char) : Option (List Char) :=
  match matchLit "fps=".data l with
  | none => none
  | some rest =>
    let ds := (skipSpaces rest).takeWhile isDigitDot
    if ds.isEmpty then none else some ds

/-- Leftmost match of `fps=\s*([\d.]+)`. -/
def searchFps : List Char → Option (List Char)
  | [] => none
  | c :: cs =>
    match tryFpsAt (c :: cs) with
    | some ds => some ds
    | none => searchFps cs

/-- Try `time=(\d+):(\d+):([\d.]+)` anchored at this position; returns the
three captures. -/
def tryTimeAt (l : List Char) : Option (List Char × List Char × List Char) :=
  match matchLit "time=".data l with
  | none => none
  | some r1 =>
    let h := r1.takeWhile Char.isDigit
    if h.isEmpty then none else
    match r1.dropWhile Char.isDigit with
    | ':' :: r2 =>
      let m := r2.takeWhile Char.isDigit
      if m.isEmpty then none else
      match r2.dropWhile Char.isDigit with
      | ':' :: r3 =>
        let s := r3.takeWhile isDigitDot
        if s.isEmpty then none else some (h, m, s)
      | _ => none
    | _ => none

/-- Leftmost match of `time=(\d+):(\d+):([\d.]+)`. -/
def searchTime : List Char → Option (List Char × List Char × List Char)
  | [] => none
  | c :: cs =>
    match tryTimeAt (c :: cs) with
    | some r => some r
    | none => searchTime cs

/-- The numeric value of a digit string. -/
def parseNatDigits (ds : List Char) : Nat :=
  ds.foldl (fun acc c => 10 * acc + (c.toNat - 48)) 0

/-- Rust `str::parse::<u64>` on a `\d+` capture: the value, unless it
overflows `u64`. -/
def parseU64 (ds : List Char) : Option Nat :=
  if parseNatDigits ds < 2 ^ 64 then some (parseNatDigits ds) else none

/-- Rust `str::parse::<f64>` on a `[\d.]+` capture, valued exactly in `ℚ`:
succeeds exactly when the capture has at most one dot and at least one
digit. -/
def parseDecimal (ds : List Char) : Option ℚ :=
  match ds.dropWhile Char.isDigit with
  | [] =>
    if (ds.takeWhile Char.isDigit).isEmpty then none
    else some (parseNatDigits (ds.takeWhile Char.isDigit) : ℚ)
  | c :: frac =>
    if c = '.' ∧ frac.all Char.isDigit
        ∧ ¬ ((ds.takeWhile Char.isDigit).isEmpty ∧ frac.isEmpty) then
      some ((parseNatDigits (ds.takeWhile Char.isDigit) : ℚ)
        + (parseNatDigits frac : ℚ) / (10 ^ frac.length : ℚ))
    else none

/-- Rust `as u64` applied to a (rational-valued) float: truncation toward
zero, saturating at 0 below and `u64::MAX` above. -/
def ratToU64 (q : ℚ) : Nat :=
  if q ≤ 0 then 0 else min (2 ^ 64 - 1) q.floor.toNat

/-- ffmpeg/export.rs `ExportProgress`. -/
structure ExportProgress where
  current_frame : Nat
  total_frames : Nat
  fps : ℚ
  progress : ℚ
  eta_seconds : Nat
deriving DecidableEq

/-- ffmpeg/export.rs lines 237-244: the elapsed seconds parsed from the
`time=` captures, `hours*3600 + minutes*60 + seconds` with each component
`parse::<f64>().unwrap_or(0.0)`, and `0` when the token is absent. -/
def elapsedOf (line : List Char) : ℚ :=
  match searchTime line with
  | some (h, m, s) =>
    ((parseDecimal h).getD 0) * 3600 + ((parseDecimal m).getD 0) * 60
      + ((parseDecimal s).getD 0)
  | none => 0

/-- ffmpeg/export.rs lines 218-271 `parse_progress`: `None` unless a
`frame=` capture parses as `u64` (the `?` chain); `fps` defaults to 30;
`progress = min(elapsed/total, 1)` when `total_duration > 0`, else 0;
`total_frames = (total_duration * fps) as u64`; `eta` from the remaining
frames (`saturating_sub`) when `fps > 0 && current_frame > 0`, else 0.
Total by construction: unrecognized input yields `None`, never a failure. -/
def parse_progress (line : List Char) (total_duration : ℚ) :
    Option ExportProgress :=
  match searchFrame line with
  | none => none
  | some ds =>
    match parseU64 ds with
    | none => none
    | some current_frame =>
      let fps : ℚ := ((searchFps line).bind parseDecimal).getD 30
      let current_time : ℚ := elapsedOf line
      let progress : ℚ :=
        if total_duration > 0 then min (current_time / total_duration) 1
        else 0
      let total_frames : Nat := ratToU64 (total_duration * fps)
      let eta_seconds : Nat :=
        if fps > 0 ∧ current_frame > 0 then
          ratToU64 (((total_frames - current_frame : Nat) : ℚ) / fps)
        else 0
      some { current_frame := current_frame, total_frames := total_frames,
             fps := fps, progress := progress, eta_seconds := eta_seconds }

/-- The spec's example progress line. -/
def c9Line : String :=
  "frame= 100 fps= 25 q=28.0 size= 1024kB time=00:00:04.00 bitrate= 202.3kbits/s speed=1.0x"

/-- A diagnostic line without a frame counter. -/
def c9Bad : String := "Some random FFmpeg output without progress"

theorem foldl_max_pull (ys : List ℚ) : ∀ a b : ℚ,
    List.foldl max (max a b) ys = max a (List.foldl max b ys) := by
  induction ys with
  | nil => intro a b; rfl
  | cons c cs ih =>
    intro a b
    show List.foldl max (max (max a b) c) cs = max a (List.foldl max (max b c) cs)
    rw [max_assoc, ih]

theorem iterMax_cons (x : ℚ) (xs : List ℚ) :
    iterMax (x :: xs) = some (xs.foldl max x) := by
  induction xs generalizing x with
  | nil => rfl
  | cons y ys ih =>
    show (match iterMax (y :: ys) with
          | none => some x
          | some m => some (max x m)) = _
    rw [ih y]
    show some (max x (List.foldl max y ys)) = some (List.foldl max (max x y) ys)
    rw [foldl_max_pull]

theorem Track.duration_eq_spec (t : Track) :
    Track.duration t = specTrackDuration t := by
  unfold Track.duration specTrackDuration
  cases h : t.clips with
  | nil => simp [h, iterMax]
  | cons c cs =>
    rw [List.map_cons, iterMax_cons]
    rfl

theorem calculate_timeline_duration_eq_spec (tracks : List Track) :
    calculate_timeline_duration tracks = specTimelineDuration tracks := by
  unfold calculate_timeline_duration specTimelineDuration
  have hmap : tracks.map Track.duration = tracks.map specTrackDuration :=
    List.map_congr_left (fun t _ => Track.duration_eq_spec t)
  rw [hmap]
  cases h : tracks.map specTrackDuration with
  | nil => rfl
  | cons x xs => rw [iterMax_cons]; rfl

/-- C8: `calculate_timeline_duration` returns the maximum over all tracks of
the track's duration, where a track's duration is the maximum over its clips
of `start_time + (out_point - in_point)`, `0` for a track with no clips and
`0` for an empty track list; on the spec's examples, clips
`(start=0,in=0,out=5)` and `(start=10,in=0,out=3)` yield `13`, and the single
trimmed clip `(start=0,in=2,out=8)` yields `6`. -/
theorem C8_calculate_timeline_duration_correct :
    (∀ tracks : List Track,
        calculate_timeline_duration tracks = specTimelineDuration tracks)
    ∧ calculate_timeline_duration [c8TrackA] = 13
    ∧ calculate_timeline_duration [c8TrackB] = 6 := by
  refine ⟨calculate_timeline_duration_eq_spec, ?_, ?_⟩
  · show (iterMax [Track.duration c8TrackA]).getD 0 = 13
    have : Track.duration c8TrackA = 13 := by
      show (iterMax [TimelineClip.end_time (mkClip "c1" 0 0 5),
                     TimelineClip.end_time (mkClip "c2" 10 0 3)]).getD 0 = 13
      simp [iterMax, TimelineClip.end_time, TimelineClip.duration, mkClip]
      norm_num
    rw [this]; rfl
  · show (iterMax [Track.duration c8TrackB]).getD 0 = 6
    have : Track.duration c8TrackB = 6 := by
      show (iterMax [TimelineClip.end_time (mkClip "c1" 0 2 8)]).getD 0 = 6
      simp [iterMax, TimelineClip.end_time, TimelineClip.duration, mkClip]
      norm_num
    rw [this]; rfl

/-! ### Lemmas about the manifest builder -/

theorem unescape_cons_ne (c : Char) (l : List Char) (h : ¬ c = quoteC) :
    unescapeQuotes (c :: l) = c :: unescapeQuotes l := by
  match l with
  | [] => rfl
  | [b] => rfl
  | [b, q1] => rfl
  | b :: q1 :: q2 :: rest =>
    show (if c = quoteC ∧ b = backslashC ∧ q1 = quoteC ∧ q2 = quoteC then
            quoteC :: unescapeQuotes rest
          else c :: unescapeQuotes (b :: q1 :: q2 :: rest)) = _
    rw [if_neg (fun hcon => h hcon.1)]

theorem unescape_escape (p : List Char) :
    unescapeQuotes (escapeQuotes p) = p := by
  induction p with
  | nil => rfl
  | cons c cs ih =>
    by_cases h : c = quoteC
    · subst h
      show unescapeQuotes
          (quoteC :: backslashC :: quoteC :: quoteC :: escapeQuotes cs) = _
      rw [show unescapeQuotes
            (quoteC :: backslashC :: quoteC :: quoteC :: escapeQuotes cs)
          = quoteC :: unescapeQuotes (escapeQuotes cs) from by
        simp [unescapeQuotes]]
      rw [ih]
    · rw [show escapeQuotes (c :: cs) = c :: escapeQuotes cs from by
        simp [escapeQuotes, h]]
      rw [unescape_cons_ne c _ h, ih]

theorem buildEntries_ok_forall₂ (media_library : List MediaClip) :
    ∀ (l : List TimelineClip) (es : List ConcatEntry),
      buildEntries media_library l = Except.ok es →
      List.Forall₂ (entryRel media_library) l es := by
  intro l
  induction l with
  | nil =>
    intro es h
    simp only [buildEntries] at h
    cases h
    exact List.Forall₂.nil
  | cons c cs ih =>
    intro es h
    simp only [buildEntries] at h
    cases hf : findMedia media_library c.media_clip_id with
    | none => rw [hf] at h; cases h
    | some m =>
      rw [hf] at h
      cases hb : buildEntries media_library cs with
      | error e => simp only [hb] at h; cases h
      | ok es' =>
        simp only [hb] at h
        cases h
        exact List.Forall₂.cons ⟨m, hf, rfl⟩ (ih es' hb)

theorem buildEntries_error_of_missing (media_library : List MediaClip) :
    ∀ l : List TimelineClip,
      (∃ c ∈ l, findMedia media_library c.media_clip_id = none) →
      ∃ c ∈ l, findMedia media_library c.media_clip_id = none ∧
        buildEntries media_library l
          = Except.error ("Media clip not found: " ++ c.media_clip_id) := by
  intro l
  induction l with
  | nil => rintro ⟨c, hc, -⟩; cases hc
  | cons c cs ih =>
    rintro ⟨c0, hc0, hmiss⟩
    cases hf : findMedia media_library c.media_clip_id with
    | none =>
      refine ⟨c, List.mem_cons_self c cs, hf, ?_⟩
      simp only [buildEntries, hf]
    | some m =>
      have hc0cs : c0 ∈ cs := by
        rcases List.mem_cons.mp hc0 with h | h
        · subst h; rw [hf] at hmiss; cases hmiss
        · exact h
      obtain ⟨c2, hc2, hnone, herr⟩ := ih ⟨c0, hc0cs, hmiss⟩
      refine ⟨c2, List.mem_cons_of_mem c hc2, hnone, ?_⟩
      simp only [buildEntries, hf, herr]

theorem forall₂_mem_right {α β : Type} {R : α → β → Prop} :
    ∀ {l1 : List α} {l2 : List β},
      List.Forall₂ R l1 l2 → ∀ b ∈ l2, ∃ a ∈ l1, R a b := by
  intro l1 l2 h
  induction h with
  | nil => intro b hb; cases hb
  | cons hab _ ih =>
    intro b hb
    rcases List.mem_cons.mp hb with h | h
    · subst h; exact ⟨_, List.mem_cons_self _ _, hab⟩
    · obtain ⟨a, ha, hr⟩ := ih b h
      exact ⟨a, List.mem_cons_of_mem _ ha, hr⟩

/-! ### C5, C6, C7 -/

/-- C5: whenever `generate_concat_file` succeeds, the manifest holds exactly
one segment group per clip of the selected main track, in ascending
`start_time` order: the emitted list corresponds one-to-one (`Forall₂`, in
order) to a sorted permutation of the selected track's clips. -/
theorem C5_manifest_sorted_one_per_clip :
    ∀ (tracks : List Track) (media_library : List MediaClip)
      (entries : List ConcatEntry),
      generate_concat_file tracks media_library = Except.ok entries →
      ∃ mt, selectMainTrack tracks = some mt ∧
        (sortClips mt.clips).Perm mt.clips ∧
        List.Sorted clipLE (sortClips mt.clips) ∧
        List.Forall₂ (entryRel media_library) (sortClips mt.clips) entries := by
  intro tracks media_library entries h
  unfold generate_concat_file at h
  cases hs : selectMainTrack tracks with
  | none => rw [hs] at h; cases h
  | some mt =>
    rw [hs] at h
    exact ⟨mt, rfl, List.perm_insertionSort clipLE mt.clips,
      List.sorted_insertionSort clipLE mt.clips,
      buildEntries_ok_forall₂ media_library _ entries h⟩

/-- C5 witness: the spec's example — clips with start times 5, 0, 10
(durations 5, 7, 3) come out in order start=0, start=5, start=10. -/
theorem C5_manifest_sorted_one_per_clip_witness :
    generate_concat_file c5Tracks c5Lib = Except.ok c5Entries ∧
    (∃ mt, selectMainTrack c5Tracks = some mt ∧
      (sortClips mt.clips).Perm mt.clips ∧
      List.Sorted clipLE (sortClips mt.clips) ∧
      List.Forall₂ (entryRel c5Lib) (sortClips mt.clips) c5Entries) := by
  have hgen : generate_concat_file c5Tracks c5Lib = Except.ok c5Entries := by
    rfl
  exact ⟨hgen, C5_manifest_sorted_one_per_clip c5Tracks c5Lib c5Entries hgen⟩

/-- C6: if any clip of the selected main track references a media id absent
from the library, `generate_concat_file` fails with a `Media clip not found`
error naming a missing id — returning before the single file write, so no
manifest (partial or otherwise) is created. -/
theorem C6_missing_media_fails_before_write :
    ∀ (tracks : List Track) (media_library : List MediaClip) (mt : Track)
      (c : TimelineClip),
      selectMainTrack tracks = some mt →
      c ∈ mt.clips →
      findMedia media_library c.media_clip_id = none →
      ∃ c2 ∈ mt.clips, findMedia media_library c2.media_clip_id = none ∧
        generate_concat_file tracks media_library
          = Except.error ("Media clip not found: " ++ c2.media_clip_id) := by
  intro tracks media_library mt c hsel hmem hmiss
  have hmem' : c ∈ sortClips mt.clips :=
    ((List.perm_insertionSort clipLE mt.clips).mem_iff).mpr hmem
  obtain ⟨c2, hc2, hnone, herr⟩ :=
    buildEntries_error_of_missing media_library (sortClips mt.clips)
      ⟨c, hmem', hmiss⟩
  refine ⟨c2, ((List.perm_insertionSort clipLE mt.clips).mem_iff).mp hc2,
    hnone, ?_⟩
  unfold generate_concat_file
  rw [hsel]
  exact herr

/-- C6 witness: a main track whose second clip references the absent media
id `mX`. -/
theorem C6_missing_media_fails_before_write_witness :
    ∃ c2 ∈ (mkMainTrack "Main" [mkClip "m1" 0 0 5, mkClip "mX" 5 0 3]).clips,
      findMedia c6Lib c2.media_clip_id = none ∧
      generate_concat_file c6Tracks c6Lib
        = Except.error ("Media clip not found: " ++ c2.media_clip_id) :=
  C6_missing_media_fails_before_write c6Tracks c6Lib
    (mkMainTrack "Main" [mkClip "m1" 0 0 5, mkClip "mX" 5 0 3])
    (mkClip "mX" 5 0 3) (by decide) (by decide) (by decide)

/-- C7: the path of every emitted segment group is the resolved path with
every single quote escaped per ffmpeg/export.rs line 100, and this escaping
round-trips — the manifest consumer's unescaping recovers the original
literal path, for every path. -/
theorem C7_escape_roundtrip :
    (∀ p : String, unescapeQuotesS (escapeQuotesS p) = p) ∧
    (∀ (tracks : List Track) (media_library : List MediaClip)
       (entries : List ConcatEntry),
      generate_concat_file tracks media_library = Except.ok entries →
      ∀ e ∈ entries, ∃ m : MediaClip,
        e.file_path = escapeQuotesS (m.proxy_path.getD m.source_path) ∧
        unescapeQuotesS e.file_path = m.proxy_path.getD m.source_path) := by
  have hrt : ∀ p : String, unescapeQuotesS (escapeQuotesS p) = p := by
    intro p
    cases p with
    | mk data =>
      show String.mk (unescapeQuotes (escapeQuotes data)) = String.mk data
      rw [unescape_escape]
  refine ⟨hrt, ?_⟩
  intro tracks media_library entries h e he
  unfold generate_concat_file at h
  cases hs : selectMainTrack tracks with
  | none => rw [hs] at h; cases h
  | some mt =>
    rw [hs] at h
    have hf2 := buildEntries_ok_forall₂ media_library _ entries h
    obtain ⟨c, -, m, -, hmk⟩ := forall₂_mem_right hf2 e he
    refine ⟨m, ?_, ?_⟩
    · rw [hmk]
    · rw [hmk]
      exact hrt (m.proxy_path.getD m.source_path)

/-- C7 witness: the spec's example path appears escaped in the manifest and
unescaping recovers it. -/
theorem C7_escape_roundtrip_witness :
    generate_concat_file c7Tracks c7Lib = Except.ok [c7Entry] ∧
    (∃ m : MediaClip,
      c7Entry.file_path = escapeQuotesS (m.proxy_path.getD m.source_path) ∧
      unescapeQuotesS c7Entry.file_path = m.proxy_path.getD m.source_path) ∧
    unescapeQuotesS (escapeQuotesS c7Path) = c7Path := by
  have hgen : generate_concat_file c7Tracks c7Lib = Except.ok [c7Entry] := by
    rfl
  exact ⟨hgen,
    C7_escape_roundtrip.2 c7Tracks c7Lib [c7Entry] hgen c7Entry
      (List.mem_cons_self _ _),
    C7_escape_roundtrip.1 c7Path⟩

/-! ### Decimal-representation lemmas (arguments rendered from numbers
consist of digit characters, so they can never equal a flag string) -/

theorem digitChar_isDigit (m : Nat) (h : m < 10) :
    (Nat.digitChar m).isDigit = true := by
  interval_cases m <;> decide

theorem toDigitsCore_digits :
    ∀ (fuel n : Nat) (ds : List Char),
      (∀ c ∈ ds, c.isDigit = true) →
      ∀ c ∈ Nat.toDigitsCore 10 fuel n ds, c.isDigit = true := by
  intro fuel
  induction fuel with
  | zero =>
    intro n ds hds c hc
    exact hds c hc
  | succ fuel ih =>
    intro n ds hds c hc
    have hstep : Nat.toDigitsCore 10 (fuel + 1) n ds
        = if n / 10 = 0 then Nat.digitChar (n % 10) :: ds
          else Nat.toDigitsCore 10 fuel (n / 10) (Nat.digitChar (n % 10) :: ds) :=
      rfl
    rw [hstep] at hc
    have hdig : (Nat.digitChar (n % 10)).isDigit = true :=
      digitChar_isDigit (n % 10) (Nat.mod_lt n (by norm_num))
    by_cases h0 : n / 10 = 0
    · rw [if_pos h0] at hc
      rcases List.mem_cons.mp hc with h | h
      · rw [h]; exact hdig
      · exact hds c h
    · rw [if_neg h0] at hc
      refine ih (n / 10) (Nat.digitChar (n % 10) :: ds) ?_ c hc
      intro c' hc'
      rcases List.mem_cons.mp hc' with h | h
      · rw [h]; exact hdig
      · exact hds c' h

theorem repr_chars_digit (n : Nat) :
    ∀ c ∈ (Nat.repr n).data, c.isDigit = true := by
  intro c hc
  have hdata : (Nat.repr n).data = Nat.toDigitsCore 10 (n + 1) n [] := rfl
  rw [hdata] at hc
  exact toDigitsCore_digits (n + 1) n [] (by intro c' h; cases h) c hc

theorem repr_ne_of_nondigit (n : Nat) (s : String)
    (h : ∃ c ∈ s.data, ¬ c.isDigit = true) : Nat.repr n ≠ s := by
  intro he
  obtain ⟨c, hc, hnd⟩ := h
  have : c ∈ (Nat.repr n).data := by rw [he]; exact hc
  exact hnd (repr_chars_digit n c this)

theorem repr_append_k_ne (n : Nat) (s : String)
    (h : ∃ c ∈ s.data, ¬ c.isDigit = true ∧ c ≠ 'k') :
    Nat.repr n ++ "k" ≠ s := by
  intro he
  obtain ⟨c, hc, hnd, hk⟩ := h
  have hdata : s.data = (Nat.repr n).data ++ ['k'] := by
    rw [← he, String.data_append]
  rw [hdata] at hc
  rcases List.mem_append.mp hc with h1 | h1
  · exact hnd (repr_chars_digit n c h1)
  · rcases List.mem_singleton.mp h1 with rfl
    exact hk rfl

/-! ### Chunk-level membership lemmas -/

theorem videoCodecArgs_subset (platform : Platform) (s : ExportSettings) :
    videoCodecArgs platform s
      ⊆ ["-c:v", "h264_videotoolbox", "h264_nvenc", "libx264", "libx265",
         "libvpx-vp9"] := by
  rcases s with ⟨res, codec, qual, fps, ac, abr, hwa⟩
  intro a ha
  cases hwa <;> cases codec <;> cases platform <;>
    simp [videoCodecArgs, VideoCodec.ffmpeg_codec] at ha <;>
    rcases ha with rfl | rfl <;> decide

theorem scaleArgs_subset (s : ExportSettings) :
    scaleArgs s
      ⊆ ["-vf",
         "scale=3840:2160:force_original_aspect_ratio=decrease",
         "scale=2560:1440:force_original_aspect_ratio=decrease",
         "scale=1920:1080:force_original_aspect_ratio=decrease",
         "scale=1280:720:force_original_aspect_ratio=decrease",
         "scale=854:480:force_original_aspect_ratio=decrease"] := by
  rcases s with ⟨res, codec, qual, fps, ac, abr, hwa⟩
  intro a ha
  cases res <;>
    simp [scaleArgs, ExportResolution.dimensions] at ha <;>
    rcases ha with rfl | rfl <;> decide

theorem not_mem_inputArgs (t cf : String)
    (hlit : t ∉ (["-f", "concat", "-safe", "0", "-i"] : List String))
    (hcf : t ≠ cf) : t ∉ inputArgs cf := by
  intro hm
  simp only [inputArgs, List.mem_cons, List.not_mem_nil, or_false] at hm
  rcases hm with h | h | h | h | h | h
  · exact hlit (by rw [h]; decide)
  · exact hlit (by rw [h]; decide)
  · exact hlit (by rw [h]; decide)
  · exact hlit (by rw [h]; decide)
  · exact hlit (by rw [h]; decide)
  · exact hcf h

theorem not_mem_fpsArgs (t : String) (s : ExportSettings) (ht : t ≠ "-r")
    (hdig : ∃ c ∈ t.data, ¬ c.isDigit = true) : t ∉ fpsArgs s := by
  cases hf : s.fps with
  | none => simp [fpsArgs, hf]
  | some n =>
    intro hm
    simp only [fpsArgs, hf, List.mem_cons, List.not_mem_nil, or_false] at hm
    rcases hm with h | h
    · exact ht h
    · exact repr_ne_of_nondigit n t hdig h.symm

theorem not_mem_audioArgs (t : String) (s : ExportSettings)
    (hlit : t ∉ (["-c:a", "aac", "libmp3lame", "libopus", "-b:a"] : List String))
    (hk : ∃ c ∈ t.data, ¬ c.isDigit = true ∧ c ≠ 'k') : t ∉ audioArgs s := by
  intro hm
  simp only [audioArgs, List.mem_cons, List.not_mem_nil, or_false] at hm
  rcases hm with h | h | h | h
  · exact hlit (by rw [h]; decide)
  · rcases s with ⟨res, codec, qual, fps, ac, abr, hwa⟩
    cases ac <;> simp [AudioCodec.ffmpeg_codec] at h <;>
      exact hlit (by rw [h]; decide)
  · exact hlit (by rw [h]; decide)
  · exact repr_append_k_ne s.audio_bitrate t hk h.symm

theorem not_mem_build_export_command (t : String) (platform : Platform)
    (cf op : String) (s : ExportSettings)
    (h1 : t ∉ inputArgs cf)
    (h2 : t ∉ videoCodecArgs platform s)
    (h3 : t ∉ rateControlArgs s)
    (h4 : t ∉ presetArgs s)
    (h5 : t ∉ scaleArgs s)
    (h6 : t ∉ fpsArgs s)
    (h7 : t ∉ audioArgs s)
    (h8 : t ≠ "-y") (h9 : t ≠ op) :
    t ∉ build_export_command platform cf op s := by
  intro hm
  simp only [build_export_command, List.mem_append, List.mem_cons,
    List.not_mem_nil, or_false] at hm
  rcases hm with ((((((hm | hm) | hm) | hm) | hm) | hm) | hm) | hm | hm
  · exact h1 hm
  · exact h2 hm
  · exact h3 hm
  · exact h4 hm
  · exact h5 hm
  · exact h6 hm
  · exact h7 hm
  · exact h8 hm
  · exact h9 hm

theorem rateControlArgs_subset (s : ExportSettings) :
    rateControlArgs s ⊆ ["-crf", "18", "23", "28", "-b:v", "5M"] := by
  rcases s with ⟨res, codec, qual, fps, ac, abr, hwa⟩
  intro a ha
  cases hwa <;> cases codec <;> cases qual <;>
    simp [rateControlArgs, ExportQuality.crf_value] at ha <;>
    rcases ha with rfl | rfl <;> decide

/-- C3 counterexample: with `hardware_acceleration = true` and codec HEVC the
software encoder is selected (per the claim's own premise, any codec other
than H264 uses the software encoder), yet the argument list contains no
`-preset` argument — refuting the claim that every software-encoder
selection receives `-preset medium`. -/
theorem C3_counterexample :
    (c3Hw.hardware_acceleration = true ∧ c3Hw.codec ≠ VideoCodec.H264 ∧
      videoCodecArgs Platform.MacOS c3Hw
        = ["-c:v", VideoCodec.ffmpeg_codec c3Hw.codec]) ∧
    "-preset" ∉ build_export_command Platform.MacOS "concat.txt" "out.mp4" c3Hw := by
  decide

/-- C3 (amended): `build_export_command` includes `-preset medium` exactly
when `hardware_acceleration` is false — the preset is keyed to the
hardware-acceleration flag alone, not to whether a software encoder was
selected (for paths that are not themselves the literal `-preset`). -/
theorem C3_preset_exactly_when_software_flag_off :
    ∀ (platform : Platform) (concat_file output_path : String)
      (settings : ExportSettings),
      concat_file ≠ "-preset" → output_path ≠ "-preset" →
      (("-preset" ∈ build_export_command platform concat_file output_path settings)
          ↔ settings.hardware_acceleration = false) ∧
      (settings.hardware_acceleration = false →
        ∃ l r, build_export_command platform concat_file output_path settings
          = l ++ "-preset" :: "medium" :: r) := by
  intro platform cf op s hcf hop
  have hpos : s.hardware_acceleration = false →
      ∃ l r, build_export_command platform cf op s
        = l ++ "-preset" :: "medium" :: r := by
    intro hsw
    refine ⟨inputArgs cf ++ videoCodecArgs platform s ++ rateControlArgs s,
      scaleArgs s ++ fpsArgs s ++ audioArgs s ++ ["-y", op], ?_⟩
    have hp : presetArgs s = ["-preset", "medium"] := by
      simp [presetArgs, hsw]
    simp [build_export_command, hp, List.append_assoc]
  refine ⟨⟨?_, ?_⟩, hpos⟩
  · intro hmem
    by_contra hne
    have hw : s.hardware_acceleration = true := by
      cases h : s.hardware_acceleration
      · exact absurd h hne
      · rfl
    exact not_mem_build_export_command "-preset" platform cf op s
      (not_mem_inputArgs _ _ (by decide) (Ne.symm hcf))
      (fun hm => (by decide :
        "-preset" ∉ (["-c:v", "h264_videotoolbox", "h264_nvenc", "libx264",
          "libx265", "libvpx-vp9"] : List String))
        (videoCodecArgs_subset platform s hm))
      (fun hm => (by decide :
        "-preset" ∉ (["-crf", "18", "23", "28", "-b:v", "5M"] : List String))
        (rateControlArgs_subset s hm))
      (by simp [presetArgs, hw])
      (fun hm => (by decide :
        "-preset" ∉ (["-vf",
          "scale=3840:2160:force_original_aspect_ratio=decrease",
          "scale=2560:1440:force_original_aspect_ratio=decrease",
          "scale=1920:1080:force_original_aspect_ratio=decrease",
          "scale=1280:720:force_original_aspect_ratio=decrease",
          "scale=854:480:force_original_aspect_ratio=decrease"] : List String))
        (scaleArgs_subset s hm))
      (not_mem_fpsArgs _ s (by decide) (by decide))
      (not_mem_audioArgs _ s (by decide) (by decide))
      (by decide) (Ne.symm hop) hmem
  · intro hsw
    obtain ⟨l, r, he⟩ := hpos hsw
    rw [he]
    simp

/-- C3 witness: with hardware acceleration off, the command contains
`-preset medium`. -/
theorem C3_preset_exactly_when_software_flag_off_witness :
    ("-preset" ∈ build_export_command Platform.MacOS "concat.txt" "out.mp4" c4Sw)
    ∧ (∃ l r, build_export_command Platform.MacOS "concat.txt" "out.mp4" c4Sw
        = l ++ "-preset" :: "medium" :: r) := by
  have h := C3_preset_exactly_when_software_flag_off Platform.MacOS
    "concat.txt" "out.mp4" c4Sw (by decide) (by decide)
  exact ⟨h.1.mpr rfl, h.2 rfl⟩

/-- C4: with `hardware_acceleration = true` and codec H264 the command has no
`-crf` argument and carries `-b:v 5M` instead; with
`hardware_acceleration = false` it always carries `-crf` followed by the
quality tier's value, where High/Medium/Low map to 18/23/28 (for paths that
are not themselves the literal `-crf`). -/
theorem C4_hw_bitrate_sw_crf :
    ∀ (platform : Platform) (concat_file output_path : String)
      (settings : ExportSettings),
      concat_file ≠ "-crf" → output_path ≠ "-crf" →
      (settings.hardware_acceleration = true →
        settings.codec = VideoCodec.H264 →
        "-crf" ∉ build_export_command platform concat_file output_path settings ∧
        ∃ l r, build_export_command platform concat_file output_path settings
          = l ++ "-b:v" :: "5M" :: r) ∧
      (settings.hardware_acceleration = false →
        ∃ l r, build_export_command platform concat_file output_path settings
          = l ++ "-crf" :: Nat.repr settings.quality.crf_value :: r) ∧
      (ExportQuality.crf_value ExportQuality.High = 18 ∧
       ExportQuality.crf_value ExportQuality.Medium = 23 ∧
       ExportQuality.crf_value ExportQuality.Low = 28) := by
  intro platform cf op s hcf hop
  refine ⟨?_, ?_, by decide⟩
  · intro hw hcodec
    have hrate : rateControlArgs s = ["-b:v", "5M"] := by
      simp [rateControlArgs, hw, hcodec]
    constructor
    · exact not_mem_build_export_command "-crf" platform cf op s
        (not_mem_inputArgs _ _ (by decide) (Ne.symm hcf))
        (fun hm => (by decide :
          "-crf" ∉ (["-c:v", "h264_videotoolbox", "h264_nvenc", "libx264",
            "libx265", "libvpx-vp9"] : List String))
          (videoCodecArgs_subset platform s hm))
        (by rw [hrate]; decide)
        (by simp [presetArgs, hw])
        (fun hm => (by decide :
          "-crf" ∉ (["-vf",
            "scale=3840:2160:force_original_aspect_ratio=decrease",
            "scale=2560:1440:force_original_aspect_ratio=decrease",
            "scale=1920:1080:force_original_aspect_ratio=decrease",
            "scale=1280:720:force_original_aspect_ratio=decrease",
            "scale=854:480:force_original_aspect_ratio=decrease"] : List String))
          (scaleArgs_subset s hm))
        (not_mem_fpsArgs _ s (by decide) (by decide))
        (not_mem_audioArgs _ s (by decide) (by decide))
        (by decide) (Ne.symm hop)
    · refine ⟨inputArgs cf ++ videoCodecArgs platform s,
        presetArgs s ++ scaleArgs s ++ fpsArgs s ++ audioArgs s ++ ["-y", op],
        ?_⟩
      simp [build_export_command, hrate, List.append_assoc]
  · intro hsw
    have hrate : rateControlArgs s
        = ["-crf", Nat.repr s.quality.crf_value] := by
      simp [rateControlArgs, hsw]
    refine ⟨inputArgs cf ++ videoCodecArgs platform s,
      presetArgs s ++ scaleArgs s ++ fpsArgs s ++ audioArgs s ++ ["-y", op],
      ?_⟩
    simp [build_export_command, hrate, List.append_assoc]

/-- C4 witness: concrete hardware and software settings exercising both
branches. -/
theorem C4_hw_bitrate_sw_crf_witness :
    ("-crf" ∉ build_export_command Platform.MacOS "concat.txt" "out.mp4" c4Hw ∧
     ∃ l r, build_export_command Platform.MacOS "concat.txt" "out.mp4" c4Hw
       = l ++ "-b:v" :: "5M" :: r) ∧
    (∃ l r, build_export_command Platform.MacOS "concat.txt" "out.mp4" c4Sw
       = l ++ "-crf" :: Nat.repr c4Sw.quality.crf_value :: r) := by
  have h1 := C4_hw_bitrate_sw_crf Platform.MacOS "concat.txt" "out.mp4" c4Hw
    (by decide) (by decide)
  have h2 := C4_hw_bitrate_sw_crf Platform.MacOS "concat.txt" "out.mp4" c4Sw
    (by decide) (by decide)
  exact ⟨h1.1 rfl rfl, h2.2.1 rfl⟩

theorem lookupJob_updateJob (jobs : Registry) (id : String)
    (f : ExportJobHandle → ExportJobHandle) :
    lookupJob (updateJob jobs id f) id = (lookupJob jobs id).map f := by
  induction jobs with
  | nil => rfl
  | cons p ps ih =>
    cases h : p.1 == id with
    | true => simp [lookupJob, updateJob, h]
    | false => simp [lookupJob, updateJob, h, ih]

/-- C1 (code bug): the claim — `Cancelled` is sticky, terminal statuses are
reached exactly once — fails on the code.  The evaluated trace: a rendering
job is cancelled (status becomes `Cancelled`, `cancel_export` succeeds);
the killed process then exits abnormally, the supervisor task runs its
unconditional error path and overwrites the status with `Failed`,
resurrecting the cancelled job.  The supervisor's `get_mut` write
(commands/export.rs lines 191-194, and 175-178 on the success path) never
checks for `Cancelled`, exactly the last-writer-wins race spec §5/§9 tells
implementers to special-case. -/
theorem C1_supervisor_overwrites_cancelled :
    (cancel_export true true c1Jobs "job-1").result = Except.ok () ∧
    statusOf (cancel_export true true c1Jobs "job-1").jobs "job-1"
      = some ExportStatus.Cancelled ∧
    statusOf
      (supervisor_finish true true
        (Except.error "FFmpeg export failed with status: signal: 9")
        "job-1" "/out/final.mp4" "/tmp/clipforge_export"
        (cancel_export true true c1Jobs "job-1").jobs).jobs "job-1"
      = some ExportStatus.Failed :=
  ⟨rfl, rfl, rfl⟩

/-- C2 counterexample: after a successful `cancel_export` the registry still
contains the job — refuting the claim that cancellation removes the record
from the registry map. -/
theorem C2_counterexample_record_retained :
    (cancel_export true true c1Jobs "job-1").result = Except.ok () ∧
    lookupJob (cancel_export true true c1Jobs "job-1").jobs "job-1"
      = some { job := { id := "job-1", output_path := "/out/final.mp4",
                        status := ExportStatus.Cancelled },
               process := none } ∧
    lookupJob (cancel_export true true c1Jobs "job-1").jobs "job-1" ≠ none :=
  ⟨rfl, rfl, by decide⟩

/-- C2 (amended): a successful `cancel_export` retains the job's record in
the registry, with its status set to `Cancelled` and its process handle
cleared; natural completion and failure likewise retain the record with
only the status field updated (to `Complete` resp. `Failed`). -/
theorem C2_cancel_retains_record :
    ∀ (jobs : Registry) (job_id : String) (kill_ok remove_ok : Bool)
      (h0 : ExportJobHandle),
      lookupJob jobs job_id = some h0 →
      ((cancel_export kill_ok remove_ok jobs job_id).result = Except.ok () →
        lookupJob (cancel_export kill_ok remove_ok jobs job_id).jobs job_id
          = some { job := { h0.job with status := ExportStatus.Cancelled },
                   process := none }) ∧
      (∀ (ro rd : Bool) (e out td : String),
        lookupJob
          (supervisor_finish ro rd (Except.error e) job_id out td jobs).jobs
          job_id
          = some { h0 with
                   job := { h0.job with status := ExportStatus.Failed } }) ∧
      (∀ (ro rd : Bool) (out td : String),
        lookupJob
          (supervisor_finish ro rd (Except.ok ()) job_id out td jobs).jobs
          job_id
          = some { h0 with
                   job := { h0.job with status := ExportStatus.Complete } }) := by
  intro jobs job_id kill_ok remove_ok h0 hlook
  have hcancel :
      lookupJob
        (setStatus (updateJob jobs job_id (fun h => { h with process := none }))
          job_id ExportStatus.Cancelled) job_id
        = some { job := { h0.job with status := ExportStatus.Cancelled },
                 process := none } := by
    unfold setStatus
    rw [lookupJob_updateJob, lookupJob_updateJob, hlook]
    rfl
  refine ⟨?_, ?_, ?_⟩
  · intro hok
    unfold cancel_export at hok ⊢
    rw [hlook] at hok ⊢
    cases hp : h0.process with
    | none =>
      simp only [hp]
      exact hcancel
    | some pid =>
      simp only [hp] at hok ⊢
      cases hk : kill_ok with
      | true =>
        simp only [hk]
        exact hcancel
      | false =>
        rw [hk] at hok
        cases hok
  · intro ro rd e out td
    show lookupJob (setStatus jobs job_id ExportStatus.Failed) job_id = _
    unfold setStatus
    rw [lookupJob_updateJob, hlook]
    rfl
  · intro ro rd out td
    show lookupJob (setStatus jobs job_id ExportStatus.Complete) job_id = _
    unfold setStatus
    rw [lookupJob_updateJob, hlook]
    rfl

/-- C2 witness: the general retention theorem applied to the concrete
one-job registry. -/
theorem C2_cancel_retains_record_witness :
    lookupJob (cancel_export true true c1Jobs "job-1").jobs "job-1"
      = some { job := { c1Job.job with status := ExportStatus.Cancelled },
               process := none } ∧
    lookupJob
      (supervisor_finish true true (Except.error "boom") "job-1"
        "/out/final.mp4" "/tmp/d" c1Jobs).jobs "job-1"
      = some { c1Job with
               job := { c1Job.job with status := ExportStatus.Failed } } ∧
    lookupJob
      (supervisor_finish true true (Except.ok ()) "job-1"
        "/out/final.mp4" "/tmp/d" c1Jobs).jobs "job-1"
      = some { c1Job with
               job := { c1Job.job with status := ExportStatus.Complete } } := by
  have h := C2_cancel_retains_record c1Jobs "job-1" true true c1Job (by decide)
  exact ⟨h.1 rfl, h.2.1 true true "boom" "/out/final.mp4" "/tmp/d",
    h.2.2 true true "/out/final.mp4" "/tmp/d"⟩

/-- C10: whenever the supervisor task finishes with an error (spawn failure
or non-zero process exit), it attempts to delete the partial output file and
the scratch manifest directory, sets the job's status to `Failed`, publishes
the error event — and the whole outcome is independent of whether either
deletion succeeds, so a cleanup failure never blocks the terminal-state
transition. -/
theorem C10_failure_path_cleanup :
    ∀ (remove_file_ok remove_dir_ok : Bool)
      (e job_id output_path temp_dir : String) (jobs : Registry)
      (h0 : ExportJobHandle),
      lookupJob jobs job_id = some h0 →
      (supervisor_finish remove_file_ok remove_dir_ok (Except.error e)
          job_id output_path temp_dir jobs).fs_ops
        = [FsOp.remove_file output_path, FsOp.remove_dir_all temp_dir] ∧
      statusOf
        (supervisor_finish remove_file_ok remove_dir_ok (Except.error e)
          job_id output_path temp_dir jobs).jobs job_id
        = some ExportStatus.Failed ∧
      (supervisor_finish remove_file_ok remove_dir_ok (Except.error e)
          job_id output_path temp_dir jobs).events
        = [Event.export_error job_id e] ∧
      (∀ ro2 rd2 : Bool,
        supervisor_finish ro2 rd2 (Except.error e)
            job_id output_path temp_dir jobs
          = supervisor_finish remove_file_ok remove_dir_ok (Except.error e)
              job_id output_path temp_dir jobs) := by
  intro ro rd e job_id output_path temp_dir jobs h0 hlook
  refine ⟨rfl, ?_, rfl, fun ro2 rd2 => rfl⟩
  show ((lookupJob (setStatus jobs job_id ExportStatus.Failed) job_id).map
    (fun h => h.job.status)) = some ExportStatus.Failed
  unfold setStatus
  rw [lookupJob_updateJob, hlook]
  rfl

/-- C10 witness: the failure-path cleanup on the concrete one-job
registry. -/
theorem C10_failure_path_cleanup_witness :
    (supervisor_finish false false (Except.error "spawn failed") "job-1"
        "/out/final.mp4" "/tmp/d" c1Jobs).fs_ops
      = [FsOp.remove_file "/out/final.mp4", FsOp.remove_dir_all "/tmp/d"] ∧
    statusOf
      (supervisor_finish false false (Except.error "spawn failed") "job-1"
        "/out/final.mp4" "/tmp/d" c1Jobs).jobs "job-1"
      = some ExportStatus.Failed ∧
    (supervisor_finish false false (Except.error "spawn failed") "job-1"
        "/out/final.mp4" "/tmp/d" c1Jobs).events
      = [Event.export_error "job-1" "spawn failed"] ∧
    (∀ ro2 rd2 : Bool,
      supervisor_finish ro2 rd2 (Except.error "spawn failed") "job-1"
          "/out/final.mp4" "/tmp/d" c1Jobs
        = supervisor_finish false false (Except.error "spawn failed") "job-1"
            "/out/final.mp4" "/tmp/d" c1Jobs) :=
  C10_failure_path_cleanup false false "spawn failed" "job-1" "/out/final.mp4"
    "/tmp/d" c1Jobs c1Job (by decide)

theorem parseDecimal_nonneg (ds : List Char) (q : ℚ)
    (h : parseDecimal ds = some q) : 0 ≤ q := by
  unfold parseDecimal at h
  split at h
  · split at h
    · cases h
    · cases h
      exact Nat.cast_nonneg _
  · split at h
    · cases h
      exact add_nonneg (Nat.cast_nonneg _)
        (div_nonneg (Nat.cast_nonneg _) (by positivity))
    · cases h

theorem parseDecimal_getD_nonneg (ds : List Char) :
    0 ≤ (parseDecimal ds).getD 0 := by
  cases h : parseDecimal ds with
  | none => exact le_refl 0
  | some q => simpa using parseDecimal_nonneg ds q h

theorem elapsedOf_nonneg (line : List Char) : 0 ≤ elapsedOf line := by
  unfold elapsedOf
  cases h : searchTime line with
  | none => exact le_refl 0
  | some r =>
    obtain ⟨a, b, c⟩ := r
    have h1 := parseDecimal_getD_nonneg a
    have h2 := parseDecimal_getD_nonneg b
    have h3 := parseDecimal_getD_nonneg c
    have : (0 : ℚ) ≤ (parseDecimal a).getD 0 * 3600
        + (parseDecimal b).getD 0 * 60 + (parseDecimal c).getD 0 := by
      have := mul_nonneg h1 (by norm_num : (0:ℚ) ≤ 3600)
      have := mul_nonneg h2 (by norm_num : (0:ℚ) ≤ 60)
      linarith
    exact this

/-- C9: `parse_progress` returns `None` exactly when no `frame=` capture
parses as a `u64` frame counter; otherwise it returns a sample whose
`current_frame` is that first captured integer, whose `fps` is the first
`fps=` decimal (30 when absent or unparseable), whose `progress` is
`min(elapsed/total_duration, 1)` for positive `total_duration` and `0`
otherwise — always within `[0, 1]` — whose `total_frames` is
`total_duration * fps` truncated to `u64`, and whose `eta_seconds` is
`(total_frames - current_frame)/fps` truncated, floored at 0 when
`fps ≤ 0` or `current_frame = 0`; it is total, so it never fails on
unrecognized input. -/
theorem C9_parse_progress_correct :
    ∀ (line : List Char) (total_duration : ℚ),
      (parse_progress line total_duration = none
        ↔ (searchFrame line).bind parseU64 = none) ∧
      (∀ n, (searchFrame line).bind parseU64 = some n →
        ∃ s, parse_progress line total_duration = some s ∧
          s.current_frame = n ∧
          s.fps = ((searchFps line).bind parseDecimal).getD 30 ∧
          s.progress = (if total_duration > 0 then
              min (elapsedOf line / total_duration) 1 else 0) ∧
          0 ≤ s.progress ∧ s.progress ≤ 1 ∧
          s.total_frames = ratToU64 (total_duration * s.fps) ∧
          ((s.fps ≤ 0 ∨ n = 0) → s.eta_seconds = 0) ∧
          (0 < s.fps → 0 < n →
            s.eta_seconds
              = ratToU64 (((s.total_frames - n : Nat) : ℚ) / s.fps))) := by
  intro line d
  constructor
  · cases hs : searchFrame line with
    | none => simp [parse_progress, hs]
    | some ds =>
      cases hp : parseU64 ds with
      | none => simp [parse_progress, hs, hp]
      | some n => simp [parse_progress, hs, hp]
  · intro n hn
    cases hs : searchFrame line with
    | none => rw [hs] at hn; cases hn
    | some ds =>
      rw [hs] at hn
      simp only [Option.some_bind] at hn
      have heq : parse_progress line d = some
          { current_frame := n,
            total_frames :=
              ratToU64 (d * (((searchFps line).bind parseDecimal).getD 30)),
            fps := ((searchFps line).bind parseDecimal).getD 30,
            progress := if d > 0 then min (elapsedOf line / d) 1 else 0,
            eta_seconds :=
              if (((searchFps line).bind parseDecimal).getD 30) > 0 ∧ n > 0
              then ratToU64
                (((ratToU64
                    (d * (((searchFps line).bind parseDecimal).getD 30))
                   - n : Nat) : ℚ)
                  / (((searchFps line).bind parseDecimal).getD 30))
              else 0 } := by
        unfold parse_progress
        rw [hs]
        dsimp only
        rw [hn]
      refine ⟨_, heq, rfl, rfl, rfl, ?_, ?_, rfl, ?_, ?_⟩
      · show (0 : ℚ) ≤ (if d > 0 then min (elapsedOf line / d) 1 else 0)
        by_cases hd : d > 0
        · rw [if_pos hd]
          refine le_min ?_ (by norm_num)
          exact div_nonneg (elapsedOf_nonneg line) (le_of_lt hd)
        · rw [if_neg hd]
      · show (if d > 0 then min (elapsedOf line / d) 1 else 0) ≤ 1
        by_cases hd : d > 0
        · rw [if_pos hd]
          exact min_le_right _ _
        · rw [if_neg hd]; norm_num
      · intro hcond
        show (if (((searchFps line).bind parseDecimal).getD 30) > 0 ∧ n > 0
          then ratToU64
            (((ratToU64 (d * (((searchFps line).bind parseDecimal).getD 30))
               - n : Nat) : ℚ)
              / (((searchFps line).bind parseDecimal).getD 30))
          else 0) = 0
        rw [if_neg]
        rintro ⟨hfps, hnpos⟩
        rcases hcond with h | h
        · exact absurd hfps (not_lt.mpr h)
        · subst h; cases hnpos
      · intro hfps hnpos
        show (if (((searchFps line).bind parseDecimal).getD 30) > 0 ∧ n > 0
          then ratToU64
            (((ratToU64 (d * (((searchFps line).bind parseDecimal).getD 30))
               - n : Nat) : ℚ)
              / (((searchFps line).bind parseDecimal).getD 30))
          else 0) = _
        rw [if_pos ⟨hfps, hnpos⟩]

/-- C9 witness: the spec's example line yields a sample with
`current_frame = 100` (and the other fields per the formulas), and the line
without a `frame=` token yields `None`. -/
theorem C9_parse_progress_correct_witness :
    (searchFrame c9Line.data).bind parseU64 = some 100 ∧
    (∃ s, parse_progress c9Line.data 100 = some s ∧
      s.current_frame = 100 ∧
      s.fps = ((searchFps c9Line.data).bind parseDecimal).getD 30 ∧
      s.progress = (if (100 : ℚ) > 0 then
          min (elapsedOf c9Line.data / 100) 1 else 0) ∧
      0 ≤ s.progress ∧ s.progress ≤ 1 ∧
      s.total_frames = ratToU64 (100 * s.fps) ∧
      ((s.fps ≤ 0 ∨ 100 = 0) → s.eta_seconds = 0) ∧
      (0 < s.fps → 0 < 100 →
        s.eta_seconds
          = ratToU64 (((s.total_frames - 100 : Nat) : ℚ) / s.fps))) ∧
    parse_progress c9Bad.data 100 = none := by
  have h100 : (searchFrame c9Line.data).bind parseU64 = some 100 := by decide
  refine ⟨h100, (C9_parse_progress_correct c9Line.data 100).2 100 h100, ?_⟩
  exact (C9_parse_progress_correct c9Bad.data 100).1.mpr (by decide)

end ClipForge

